import Mathlib

/-!
Verification of the utcore multi-view reconstruction routines.

Shallow embedding over exact rationals of:
* `pointToPointDist` / `pointToPointDistImp` and the RANSAC evaluator
  `EvaluateFundamentalMatrix::operator()` (epipolar point-to-line distance),
* the two-view and N-view DLT triangulation `get3DPosition` (the external
  LAPACK `gesvd` call is an oracle parameter; everything around it is
  translated from the source),
* the reconstruction pipeline `reconstruct3DPoints` (the Munkres assignment
  solver lives outside the provided sources and is modelled from the spec),
* the `ProjectPoint` functor overloads,
* the ToolTip RANSAC wrapper `estimatePosition3D_6D` (the generic RANSAC
  engine lives outside the provided sources and is modelled from the spec).
-/

namespace Ubitrack

/-- A 2-vector (image point), exact-rational model of `Math::Vector< 2, T >`. -/
structure Vec2 where
  x : ℚ
  y : ℚ
deriving DecidableEq, Repr

/-- A 3-vector, exact-rational model of `Math::Vector< 3, T >`. -/
structure Vec3 where
  x : ℚ
  y : ℚ
  z : ℚ
deriving DecidableEq, Repr

/-- A 4-vector, exact-rational model of `Math::Vector< 4, T >`. -/
structure Vec4 where
  a : ℚ
  b : ℚ
  c : ℚ
  d : ℚ
deriving DecidableEq, Repr

/-- A 6-vector, exact-rational model of `Math::Vector< T, 6 >`. -/
structure Vec6 where
  a : ℚ
  b : ℚ
  c : ℚ
  d : ℚ
  e : ℚ
  f : ℚ
deriving DecidableEq, Repr

/-- A 3x3 matrix, exact-rational model of `Math::Matrix< 3, 3, T >`. -/
structure Mat3 where
  m00 : ℚ
  m01 : ℚ
  m02 : ℚ
  m10 : ℚ
  m11 : ℚ
  m12 : ℚ
  m20 : ℚ
  m21 : ℚ
  m22 : ℚ
deriving DecidableEq, Repr

/-- A 3x4 projection matrix, exact-rational model of `Math::Matrix< 3, 4, T >`. -/
structure Mat34 where
  m00 : ℚ
  m01 : ℚ
  m02 : ℚ
  m03 : ℚ
  m10 : ℚ
  m11 : ℚ
  m12 : ℚ
  m13 : ℚ
  m20 : ℚ
  m21 : ℚ
  m22 : ℚ
  m23 : ℚ
deriving DecidableEq, Repr

/-- A 4x4 matrix (the stacked two-view DLT system `A`). -/
structure Mat4 where
  r0 : Vec4
  r1 : Vec4
  r2 : Vec4
  r3 : Vec4
deriving DecidableEq, Repr

/-- Matrix-vector product `ublas::prod( fM, v )` for a 3x3 matrix. -/
def matVec3 (m : Mat3) (v : Vec3) : Vec3 :=
  ⟨m.m00 * v.x + m.m01 * v.y + m.m02 * v.z,
   m.m10 * v.x + m.m11 * v.y + m.m12 * v.z,
   m.m20 * v.x + m.m21 * v.y + m.m22 * v.z⟩

/-- Homogenisation `Math::Vector< 3, T >( p( 0 ), p( 1 ), 1 )` of a 2-vector. -/
def homog2 (p : Vec2) : Vec3 := ⟨p.x, p.y, 1⟩

/-- `pointToPointDistImp` from `3DPointReconstruction.cpp`: squared distance of
`to` to the epipolar line `fM * from`. -/
def pointToPointDistImp (fr toP : Vec3) (fM : Mat3) : ℚ :=
  let fr_ : Vec3 := matVec3 fM fr
  let term : ℚ := fr_.x * toP.x + fr_.y * toP.y + fr_.z
  (term * term) / (fr_.x * fr_.x + fr_.y * fr_.y)

/-- `pointToPointDist` (2-vector overload) from `3DPointReconstruction.cpp`:
homogenises both points with third coordinate 1 and calls
`pointToPointDistImp`. -/
def pointToPointDist (fr toP : Vec2) (fM : Mat3) : ℚ :=
  pointToPointDistImp (homog2 fr) (homog2 toP) fM

/-- `EvaluateFundamentalMatrix::operator()` from `FundamentalMatrix.h`:
`from_( i ) = fM( i, 0 )*from( 0 ) + fM( i, 1 )*from( 1 ) + fM( i, 2 )`,
then the squared point-to-line distance. -/
def evaluateFundamentalMatrix (fM : Mat3) (fr toP : Vec2) : ℚ :=
  let f0 : ℚ := fM.m00 * fr.x + fM.m01 * fr.y + fM.m02
  let f1 : ℚ := fM.m10 * fr.x + fM.m11 * fr.y + fM.m12
  let f2 : ℚ := fM.m20 * fr.x + fM.m21 * fr.y + fM.m22
  let term : ℚ := f0 * toP.x + f1 * toP.y + f2
  (term * term) / (f0 * f0 + f1 * f1)

/-- The epipolar line of the spec's words: map the homogeneous `from` point
through `F` to get the line `(a, b, c)`.  Stated from the spec for the
refinement comparison in claim C3, not from the source. -/
def specEpipolarLine (fM : Mat3) (p : Vec2) : Vec3 :=
  matVec3 fM ⟨p.x, p.y, 1⟩

/-- Negation of a 4-vector, `vec = -vec` in the sign-correction loop. -/
def neg4 (v : Vec4) : Vec4 := ⟨-v.a, -v.b, -v.c, -v.d⟩

/-- The zero 4-vector. -/
def vec4zero : Vec4 := ⟨0, 0, 0, 0⟩

/-- Scalar multiple of a 4-vector (used to build the DLT rows `x * row2( P )`). -/
def smul4 (s : ℚ) (v : Vec4) : Vec4 := ⟨s * v.a, s * v.b, s * v.c, s * v.d⟩

/-- Difference of two 4-vectors. -/
def sub4 (v w : Vec4) : Vec4 := ⟨v.a - w.a, v.b - w.b, v.c - w.c, v.d - w.d⟩

/-- Row 0 of a 3x4 matrix as a 4-vector. -/
def row0 (P : Mat34) : Vec4 := ⟨P.m00, P.m01, P.m02, P.m03⟩

/-- Row 1 of a 3x4 matrix as a 4-vector. -/
def row1 (P : Mat34) : Vec4 := ⟨P.m10, P.m11, P.m12, P.m13⟩

/-- Row 2 of a 3x4 matrix as a 4-vector. -/
def row2 (P : Mat34) : Vec4 := ⟨P.m20, P.m21, P.m22, P.m23⟩

/-- Dot product of two 4-vectors. -/
def dot4 (v w : Vec4) : ℚ := v.a * w.a + v.b * w.b + v.c * w.c + v.d * w.d

/-- Product of a 4x4 matrix with a 4-vector. -/
def matVec4 (A : Mat4) (v : Vec4) : Vec4 :=
  ⟨dot4 A.r0 v, dot4 A.r1 v, dot4 A.r2 v, dot4 A.r3 v⟩

/-- The 4x4 two-view DLT system of `get3DPositionImpl( P1, P2, x, x_ )`:
row 0 is `x( 0 )*row( P1, 2 ) - row( P1, 0 )`, row 1 is
`x( 1 )*row( P1, 2 ) - row( P1, 1 )`, rows 2 and 3 likewise from `P2`
and `x_`. -/
def buildA2 (P1 P2 : Mat34) (x x_ : Vec2) : Mat4 :=
  ⟨sub4 (smul4 x.x (row2 P1)) (row0 P1),
   sub4 (smul4 x.y (row2 P1)) (row1 P1),
   sub4 (smul4 x_.x (row2 P2)) (row0 P2),
   sub4 (smul4 x_.y (row2 P2)) (row1 P2)⟩

/-- Dehomogenisation: divide the first three components of the homogeneous
solution by the fourth, as in `Vt( 3, i ) / Vt( 3, 3 )` and in
`vec /= vec( 3 )`. -/
def dehom4 (v : Vec4) : Vec3 := ⟨v.a / v.d, v.b / v.d, v.c / v.d⟩

/-- The two-view `get3DPosition( P1, P2, x, x_ )`.  The external LAPACK
`gesvd` call is the oracle `svd2`, which the external-SVD contract of the
spec maps to the right-singular row of smallest singular value of the
system matrix; the function dehomogenises that row, with no other
processing. -/
def get3DPosition (P1 P2 : Mat34) (x x_ : Vec2) (svd2 : Mat4 → Vec4) : Vec3 :=
  dehom4 (svd2 (buildA2 P1 P2 x x_))

/-- Projective depth of the homogeneous solution `vec` with respect to the
third row of camera `P`: the expression
`P( 2, 0 )*vec( 0 ) + P( 2, 1 )*vec( 1 ) + P( 2, 2 )*vec( 2 ) + P( 2, 3 )*vec( 3 )`
of the N-view sign-correction loop. -/
def depthRow3 (P : Mat34) (v : Vec4) : ℚ :=
  P.m20 * v.a + P.m21 * v.b + P.m22 * v.c + P.m23 * v.d

/-- Projective depth of an inhomogeneous 3D point: third component of
`P * (X; 1)`. -/
def depthOfPoint (P : Mat34) (X : Vec3) : ℚ :=
  depthRow3 P ⟨X.x, X.y, X.z, 1⟩

/-- The N-view sign-correction loop of `get3DPositionImpl`: scan the cameras
in input order; at the first camera whose third-row projective depth of the
solution is negative, negate the whole vector and stop (`break`). -/
def correctSign : List Mat34 → Vec4 → Vec4
  | [], v => v
  | P :: Ps, v => if depthRow3 P v < 0 then neg4 v else correctSign Ps v

/-- The skew-symmetric cross-product matrix `[ x, y, 1 ]_x` built row by row
in the N-view `get3DPositionImpl` (rows `(0, 1, -y)`, `(-1, 0, x)`,
`(y, -x, 0)`). -/
def skew (p : Vec2) : Mat3 :=
  ⟨0, 1, -p.y, -1, 0, p.x, p.y, -p.x, 0⟩

/-- Product of a 3x3 matrix with a 3x4 matrix: one 3x4 block
`A_i = skew * P_i` of the stacked N-view DLT system. -/
def mulMat3Mat34 (S : Mat3) (P : Mat34) : Mat34 :=
  ⟨S.m00 * P.m00 + S.m01 * P.m10 + S.m02 * P.m20,
   S.m00 * P.m01 + S.m01 * P.m11 + S.m02 * P.m21,
   S.m00 * P.m02 + S.m01 * P.m12 + S.m02 * P.m22,
   S.m00 * P.m03 + S.m01 * P.m13 + S.m02 * P.m23,
   S.m10 * P.m00 + S.m11 * P.m10 + S.m12 * P.m20,
   S.m10 * P.m01 + S.m11 * P.m11 + S.m12 * P.m21,
   S.m10 * P.m02 + S.m11 * P.m12 + S.m12 * P.m22,
   S.m10 * P.m03 + S.m11 * P.m13 + S.m12 * P.m23,
   S.m20 * P.m00 + S.m21 * P.m10 + S.m22 * P.m20,
   S.m20 * P.m01 + S.m21 * P.m11 + S.m22 * P.m21,
   S.m20 * P.m02 + S.m21 * P.m12 + S.m22 * P.m22,
   S.m20 * P.m03 + S.m21 * P.m13 + S.m22 * P.m23⟩

/-- The stacked (3N)x4 N-view DLT system as its list of 3x4 blocks
`A_i = [ x_i, y_i, 1 ]_x * P_i`. -/
def buildStackedA (Ps : List Mat34) (pts : List Vec2) : List Mat34 :=
  List.zipWith (fun P p => mulMat3Mat34 (skew p) P) Ps pts

/-- Error outcomes of the triangulation entry points: the three distinct
`UBITRACK_THROW` sites of `3DPointReconstruction.cpp`. -/
inductive TriError where
  | sizeMismatch
  | invalidInput
  | svdFailed
deriving DecidableEq, Repr

/-- The N-view `get3DPositionImpl( iBegin, iEnd, iPoints )`: reject fewer
than 2 views before anything else; then solve the stacked system via the
external SVD (oracle `svdN`, `Option` capturing the nonzero `gesvd` return
code); then run the sign-correction scan and dehomogenise. -/
def get3DPositionImplN (Ps : List Mat34) (pts : List Vec2)
    (svdN : List Mat34 → Option Vec4) : Except TriError Vec3 :=
  if Ps.length < 2 then Except.error TriError.invalidInput
  else
    match svdN (buildStackedA Ps pts) with
    | none => Except.error TriError.svdFailed
    | some r => Except.ok (dehom4 (correctSign Ps r))

/-- The public vector overload `get3DPosition( P, points, flag )`: reject a
size mismatch between matrices and points first, run the linear N-view
solve, and when `flag > 0` run the nonlinear refinement.  `opt` is an oracle
for the external Levenberg-Marquardt refinement step
(`optimize3DPositionImpl`). -/
def get3DPositionVec (P : List Mat34) (points : List Vec2) (flag : Nat)
    (svdN : List Mat34 → Option Vec4) (opt : Vec3 → Vec3) : Except TriError Vec3 :=
  if P.length ≠ points.length then Except.error TriError.sizeMismatch
  else
    match get3DPositionImplN P points svdN with
    | Except.error e => Except.error e
    | Except.ok r => Except.ok (if flag > 0 then opt r else r)

/-- The public `get3DPositionWithResidual( P, points, flag, pResidual )`:
same shape as `get3DPositionVec`, additionally reporting the refinement
residual (written only when the refinement runs).  `opt` is an oracle for
the external Levenberg-Marquardt solver returning the refined point and the
residual norm. -/
def get3DPositionWithResidual (P : List Mat34) (points : List Vec2) (flag : Nat)
    (svdN : List Mat34 → Option Vec4) (opt : Vec3 → Vec3 × ℚ) :
    Except TriError (Vec3 × Option ℚ) :=
  if P.length ≠ points.length then Except.error TriError.sizeMismatch
  else
    match get3DPositionImplN P points svdN with
    | Except.error e => Except.error e
    | Except.ok r =>
        if flag > 0 then Except.ok ((opt r).1, some (opt r).2)
        else Except.ok (r, none)

/-- The zero 2-vector (default element for indexed access). -/
def vec2zero : Vec2 := ⟨0, 0⟩

/-- The cost matrix of `reconstruct3DPointsImpl`: entry `( row, col )` is
`pointToPointDist( p1.at( row ), p2.at( col ), fM )`, rows over `p1`,
columns over `p2`. -/
def costMatrix (p1 p2 : List Vec2) (fM : Mat3) : List (List ℚ) :=
  p1.map (fun a => p2.map (fun b => pointToPointDist a b fM))

/-- Modelled from the spec: cost lookup for the padded square assignment
problem of the Munkres solver (`utMath/Graph/Munkres.h` is not among the
provided sources).  Entries of the real `R x C` matrix are kept; the padded
region gets the large constant `big`. -/
def padCost (m : List (List ℚ)) (R C : Nat) (big : ℚ) (i j : Nat) : ℚ :=
  if i < R ∧ j < C then (m.getD i []).getD j 0 else big

/-- Total cost of one candidate assignment (a permutation given as the list
of matched column indices, row by row). -/
def permTotalCost (cost : Nat → Nat → ℚ) (sigma : List Nat) : ℚ :=
  (List.range sigma.length).foldl (fun acc i => acc + cost i (sigma.getD i 0)) 0

/-- Modelled from the spec: the Munkres minimum-cost bipartite assignment
(`utMath/Graph/Munkres.h` is not among the provided sources; spec 4.4).  Pad
the `R x C` matrix to square with a large constant, minimise the total cost
over all permutations with a deterministic first-found tie-break, and return
per original row the matched column index; an index `>= C` (padded region)
means unmatched, matching the sentinel convention of `getRowMatchList`. -/
def munkresRowMatchList (m : List (List ℚ)) (R C : Nat) : List Nat :=
  let n := max R C
  let big := 1 + m.foldl (fun acc r => acc + r.foldl (fun a q => a + |q|) 0) 0
  let cost := padCost m R C big
  match (List.range n).permutations with
  | [] => []
  | s0 :: rest =>
      (rest.foldl (fun best s =>
          if permTotalCost cost s < permTotalCost cost best then s else best) s0).take R

/-- `reconstruct3DPointsImpl( p1, p2, P1, P2, fM )`: build the cost matrix,
solve the assignment, and for each row `i` (in increasing order) whose
matched column is `< p2.size()` append the two-view triangulation of the
matched pair; other rows contribute nothing.  `svd2` is the external SVD
oracle threaded into the two-view `get3DPosition`. -/
def reconstruct3DPoints (p1 p2 : List Vec2) (P1 P2 : Mat34) (fM : Mat3)
    (svd2 : Mat4 → Vec4) : List Vec3 :=
  let matrix := costMatrix p1 p2 fM
  let matchList := munkresRowMatchList matrix p1.length p2.length
  (List.range p1.length).foldl
    (fun list i =>
      if matchList.getD i p2.length < p2.length then
        list ++ [get3DPosition P1 P2 (p1.getD i vec2zero)
                  (p2.getD (matchList.getD i p2.length) vec2zero) svd2]
      else list) []

/-- Modelled from the spec: the result of one invocation of the generic
RANSAC engine (`utMath/Optimization/Ransac.h` is not among the provided
sources): the inlier count, which may be 0 when no valid model was found,
and the 6-component result vector, undefined in that case. -/
structure RansacResult where
  inlier : Nat
  resultVector : Vec6
deriving DecidableEq, Repr

/-- The ToolTip RANSAC wrapper `estimatePosition3D_6D( pw, poses, pm,
params )` from `ToolTip/Ransac.h`: run the engine, copy components 0-2 of
the result vector into `pw` and components 3-5 into `pm` unconditionally,
and return `inlier > 0`.  The engine invocation is the `engine` argument. -/
def estimatePosition3D_6D (engine : RansacResult) : Bool × Vec3 × Vec3 :=
  let rv := engine.resultVector
  (decide (0 < engine.inlier), ⟨rv.a, rv.b, rv.c⟩, ⟨rv.d, rv.e, rv.f⟩)

/-- `ProjectPoint::operator()` for a 3x4 matrix and a 2-vector, from
`PointProjection.h`: the third column of the matrix is skipped (the third
coordinate is assumed zero) and the fourth column enters as the constant
term. -/
def projectPoint2on34 (P : Mat34) (v : Vec2) : Vec2 :=
  let e1 := P.m00 * v.x + P.m01 * v.y + P.m03
  let e2 := P.m10 * v.x + P.m11 * v.y + P.m13
  let e3 := P.m20 * v.x + P.m21 * v.y + P.m23
  ⟨e1 / e3, e2 / e3⟩

/-- `ProjectPoint::operator()` for a 3x4 matrix and a 3-vector, from
`PointProjection.h`: the full homogeneous projection with unit last
coordinate. -/
def projectPoint3on34 (P : Mat34) (v : Vec3) : Vec2 :=
  let e1 := P.m00 * v.x + P.m01 * v.y + P.m02 * v.z + P.m03
  let e2 := P.m10 * v.x + P.m11 * v.y + P.m12 * v.z + P.m13
  let e3 := P.m20 * v.x + P.m21 * v.y + P.m22 * v.z + P.m23
  ⟨e1 / e3, e2 / e3⟩

/-- Characterisation of the sign-correction scan through the first camera
found with negative depth. -/
theorem correctSign_eq_find (Ps : List Mat34) (v : Vec4) :
    correctSign Ps v =
      match Ps.find? (fun P => decide (depthRow3 P v < 0)) with
      | none => v
      | some _ => neg4 v := by
  induction Ps with
  | nil => rfl
  | cons P Ps ih =>
    by_cases h : depthRow3 P v < 0
    · simp [correctSign, h, List.find?_cons]
    · simp [correctSign, h, List.find?_cons, ih]

/-- A left fold that conditionally appends one element per index equals the
map over the filtered index list. -/
theorem foldl_append_eq_filter_map {β : Type} (q : Nat → Prop) [DecidablePred q]
    (f : Nat → β) :
    ∀ (l : List Nat) (acc : List β),
      l.foldl (fun list i => if q i then list ++ [f i] else list) acc
        = acc ++ (l.filter (fun i => decide (q i))).map f := by
  intro l
  induction l with
  | nil => intro acc; simp
  | cons a t ih =>
    intro acc
    by_cases h : q a <;> simp [List.foldl_cons, List.filter_cons, h, ih]

/-- C3: for every pair of 2D points and every 3x3 matrix `F`,
`pointToPointDist( from, to, F )` returns
`(a*x_to + b*y_to + c)^2 / (a^2 + b^2)` where `(a, b, c)` is the epipolar
line obtained by mapping the homogeneous `from` point through `F`. -/
theorem pointToPointDist_epipolar_formula (fM : Mat3) (fr toP : Vec2) :
    pointToPointDist fr toP fM =
      ((specEpipolarLine fM fr).x * toP.x + (specEpipolarLine fM fr).y * toP.y
          + (specEpipolarLine fM fr).z) ^ 2
        / ((specEpipolarLine fM fr).x ^ 2 + (specEpipolarLine fM fr).y ^ 2) := by
  simp [pointToPointDist, pointToPointDistImp, homog2, matVec3, specEpipolarLine]
  ring_nf

/-- C4: the reconstruction pipeline's consistency metric `pointToPointDist`
and the RANSAC evaluator `EvaluateFundamentalMatrix::operator()` compute the
same function for every 3x3 matrix and every pair of 2D points. -/
theorem evaluateFundamentalMatrix_eq_pointToPointDist (fM : Mat3) (fr toP : Vec2) :
    evaluateFundamentalMatrix fM fr toP = pointToPointDist fr toP fM := by
  simp [evaluateFundamentalMatrix, pointToPointDist, pointToPointDistImp,
    homog2, matVec3]

/-- C7: the epipolar evaluator is one-directional, not symmetric: at the
matrix `[[1,2,3],[4,5,6],[7,8,10]]` and the points `(1,1)` and `(2,3)`,
swapping the two points changes the value of `pointToPointDist`. -/
theorem pointToPointDist_one_directional :
    pointToPointDist ⟨1, 1⟩ ⟨2, 3⟩ ⟨1, 2, 3, 4, 5, 6, 7, 8, 10⟩ ≠
      pointToPointDist ⟨2, 3⟩ ⟨1, 1⟩ ⟨1, 2, 3, 4, 5, 6, 7, 8, 10⟩ := by
  norm_num [pointToPointDist, pointToPointDistImp, homog2, matVec3]

/-- C5: in the N-view DLT triangulation the homogeneous solution is negated
at most once, globally: the result of the sign-correction scan is the
negated vector exactly when some contributing camera sees a negative
third-row projective depth of the solution, and the vector unchanged
otherwise — never a per-camera negation. -/
theorem correctSign_single_global_negation (Ps : List Mat34) (v : Vec4) :
    correctSign Ps v =
      if Ps.any (fun P => decide (depthRow3 P v < 0)) then neg4 v else v := by
  induction Ps with
  | nil => rfl
  | cons P Ps ih =>
    by_cases h : depthRow3 P v < 0
    · simp [correctSign, h]
    · simp [correctSign, h, ih]

/-- C1 (counterexample): the two-view `get3DPosition` applies no sign
correction.  With `P1 = [I|0]`, `P2 = [I|(0,0,2)]`, image points `(-1,-1)`
and `(1,1)`, the two-view DLT system has the one-dimensional null space
spanned by `(1,1,-1,1)`; for either sign of that null vector (the only
freedom the external SVD has), the returned point is `(1,1,-1)`, whose
projective depth with respect to the contributing camera `P1` is negative. -/
theorem get3DPosition_cheirality_counterexample :
    matVec4 (buildA2 ⟨1,0,0,0, 0,1,0,0, 0,0,1,0⟩ ⟨1,0,0,0, 0,1,0,0, 0,0,1,2⟩
        ⟨-1,-1⟩ ⟨1,1⟩) ⟨1,1,-1,1⟩ = vec4zero
    ∧ matVec4 (buildA2 ⟨1,0,0,0, 0,1,0,0, 0,0,1,0⟩ ⟨1,0,0,0, 0,1,0,0, 0,0,1,2⟩
        ⟨-1,-1⟩ ⟨1,1⟩) (neg4 ⟨1,1,-1,1⟩) = vec4zero
    ∧ get3DPosition ⟨1,0,0,0, 0,1,0,0, 0,0,1,0⟩ ⟨1,0,0,0, 0,1,0,0, 0,0,1,2⟩
        ⟨-1,-1⟩ ⟨1,1⟩ (fun _ => ⟨1,1,-1,1⟩) = ⟨1,1,-1⟩
    ∧ get3DPosition ⟨1,0,0,0, 0,1,0,0, 0,0,1,0⟩ ⟨1,0,0,0, 0,1,0,0, 0,0,1,2⟩
        ⟨-1,-1⟩ ⟨1,1⟩ (fun _ => neg4 ⟨1,1,-1,1⟩) = ⟨1,1,-1⟩
    ∧ depthOfPoint ⟨1,0,0,0, 0,1,0,0, 0,0,1,0⟩ ⟨1,1,-1⟩ < 0 := by
  norm_num [matVec4, buildA2, vec4zero, neg4, get3DPosition, dehom4, depthOfPoint,
    depthRow3, smul4, sub4, row0, row1, row2, dot4]

/-- C1 (amended): only the N-view overload corrects the sign, and only with
respect to the scan's triggering camera: when no contributing camera sees a
negative third-row depth the solution is returned unchanged and every
contributing camera's depth is nonnegative; when the scan finds a first
camera with negative depth, the whole vector is negated once and that
triggering camera's depth of the negated solution is positive — the other
cameras are not re-checked, and the two-view overload applies no sign
correction at all. -/
theorem cheirality_correction_scope (Ps : List Mat34) (v : Vec4) :
    (Ps.find? (fun P => decide (depthRow3 P v < 0)) = none →
        correctSign Ps v = v ∧ ∀ P ∈ Ps, 0 ≤ depthRow3 P v)
    ∧ ∀ P0, Ps.find? (fun P => decide (depthRow3 P v < 0)) = some P0 →
        correctSign Ps v = neg4 v ∧ 0 < depthRow3 P0 (neg4 v) := by
  constructor
  · intro h
    refine ⟨by simp [correctSign_eq_find, h], ?_⟩
    intro P hP
    have hfalse := List.find?_eq_none.mp h P hP
    simp at hfalse
    linarith
  · intro P0 h
    have hpred := List.find?_some h
    simp at hpred
    refine ⟨by simp [correctSign_eq_find, h], ?_⟩
    have hneg : depthRow3 P0 (neg4 v) = -depthRow3 P0 v := by
      simp [depthRow3, neg4]; ring
    rw [hneg]
    linarith

/-- C1 (witness): a single camera `[I|0]` with the solution `(0,0,-1,1)`
triggers the negation and ends with positive depth. -/
theorem cheirality_correction_scope_witness :
    correctSign [⟨1,0,0,0, 0,1,0,0, 0,0,1,0⟩] ⟨0,0,-1,1⟩ = neg4 ⟨0,0,-1,1⟩
      ∧ 0 < depthRow3 ⟨1,0,0,0, 0,1,0,0, 0,0,1,0⟩ (neg4 ⟨0,0,-1,1⟩) :=
  (cheirality_correction_scope [⟨1,0,0,0, 0,1,0,0, 0,0,1,0⟩] ⟨0,0,-1,1⟩).2
    ⟨1,0,0,0, 0,1,0,0, 0,0,1,0⟩
    (by rw [List.find?_cons_of_pos]; norm_num [depthRow3])

/-- C6: for equally many projection matrices and image points, the N-view
`get3DPosition( P, points, flag )` fails with `InvalidInput` exactly when
fewer than 2 views are supplied, regardless of the SVD and refinement
oracles (so before any numerical computation); with at least 2 views the
call is never rejected for this reason. -/
theorem get3DPositionVec_invalidInput_underdetermined (P : List Mat34)
    (points : List Vec2) (flag : Nat) (svdN : List Mat34 → Option Vec4)
    (opt : Vec3 → Vec3) (hlen : P.length = points.length) :
    (P.length < 2 →
        get3DPositionVec P points flag svdN opt = Except.error TriError.invalidInput)
    ∧ (2 ≤ P.length →
        get3DPositionVec P points flag svdN opt ≠ Except.error TriError.invalidInput) := by
  have hne : ¬ P.length ≠ points.length := by simp [hlen]
  constructor
  · intro h2
    simp [get3DPositionVec, hne, get3DPositionImplN, h2]
  · intro h2
    have h3 : ¬ P.length < 2 := Nat.not_lt.mpr h2
    simp only [get3DPositionVec, get3DPositionImplN, if_neg hne, if_neg h3]
    cases svdN (buildStackedA P points) <;> simp

/-- C6 (witness): one camera and one point, equal sizes, an SVD oracle that
would even fail: the call is rejected as underdetermined. -/
theorem get3DPositionVec_invalidInput_underdetermined_witness :
    (1 : Nat) < 2 ∧
      get3DPositionVec [⟨1,0,0,0, 0,1,0,0, 0,0,1,0⟩] [⟨0,0⟩] 0 (fun _ => none) id
        = Except.error TriError.invalidInput :=
  ⟨by decide,
    (get3DPositionVec_invalidInput_underdetermined
        [⟨1,0,0,0, 0,1,0,0, 0,0,1,0⟩] [⟨0,0⟩] 0 (fun _ => none) id rfl).1 (by decide)⟩

/-- C9: both vector overloads, `get3DPosition( P, points, flag )` and
`get3DPositionWithResidual`, reject a size mismatch between the projection
matrices and the image points before any triangulation (the rejection is
independent of the SVD and refinement oracles). -/
theorem get3DPosition_sizeMismatch_first (P : List Mat34) (points : List Vec2)
    (flag : Nat) (svdN : List Mat34 → Option Vec4) (opt : Vec3 → Vec3)
    (opt2 : Vec3 → Vec3 × ℚ) (h : P.length ≠ points.length) :
    get3DPositionVec P points flag svdN opt = Except.error TriError.sizeMismatch
    ∧ get3DPositionWithResidual P points flag svdN opt2
        = Except.error TriError.sizeMismatch := by
  constructor <;> simp [get3DPositionVec, get3DPositionWithResidual, h]

/-- C9 (witness): zero matrices against one point are rejected as a size
mismatch by both overloads. -/
theorem get3DPosition_sizeMismatch_first_witness :
    ([] : List Mat34).length ≠ [vec2zero].length ∧
      get3DPositionVec [] [vec2zero] 0 (fun _ => none) id
        = Except.error TriError.sizeMismatch ∧
      get3DPositionWithResidual [] [vec2zero] 0 (fun _ => none) (fun r => (r, 0))
        = Except.error TriError.sizeMismatch := by
  refine ⟨by decide, ?_, ?_⟩
  · exact (get3DPosition_sizeMismatch_first [] [vec2zero] 0 (fun _ => none) id
      (fun r => (r, 0)) (by decide)).1
  · exact (get3DPosition_sizeMismatch_first [] [vec2zero] 0 (fun _ => none) id
      (fun r => (r, 0)) (by decide)).2

/-- C2: `reconstruct3DPoints` builds the `p1.size() x p2.size()` cost matrix
whose entry `( row, col )` is `pointToPointDist( p1[row], p2[col], fM )`,
solves the assignment on it, and returns, in increasing row order, exactly
one two-view triangulation `get3DPosition( P1, P2, p1[i], p2[match(i)] )`
per row `i` whose matched column is strictly below `p2.size()`; unmatched
rows contribute nothing. -/
theorem reconstruct3DPoints_assignment_pipeline (p1 p2 : List Vec2)
    (P1 P2 : Mat34) (fM : Mat3) (svd2 : Mat4 → Vec4) :
    (∀ row col, row < p1.length → col < p2.length →
        ((costMatrix p1 p2 fM).getD row []).getD col 0
          = pointToPointDist (p1.getD row vec2zero) (p2.getD col vec2zero) fM)
    ∧ reconstruct3DPoints p1 p2 P1 P2 fM svd2
        = ((List.range p1.length).filter (fun i =>
              decide ((munkresRowMatchList (costMatrix p1 p2 fM) p1.length
                  p2.length).getD i p2.length < p2.length))).map
            (fun i => get3DPosition P1 P2 (p1.getD i vec2zero)
                (p2.getD ((munkresRowMatchList (costMatrix p1 p2 fM) p1.length
                    p2.length).getD i p2.length) vec2zero) svd2) := by
  constructor
  · intro row col hr hc
    simp [costMatrix, List.getD_eq_getElem?_getD, List.getElem?_map,
      List.getElem?_eq_getElem, hr, hc]
  · show (List.range p1.length).foldl _ [] = _
    rw [foldl_append_eq_filter_map
      (fun i => (munkresRowMatchList (costMatrix p1 p2 fM) p1.length
          p2.length).getD i p2.length < p2.length)
      (fun i => get3DPosition P1 P2 (p1.getD i vec2zero)
          (p2.getD ((munkresRowMatchList (costMatrix p1 p2 fM) p1.length
              p2.length).getD i p2.length) vec2zero) svd2)
      (List.range p1.length) []]
    simp

/-- C2 (witness): the cost-matrix characterisation applied at a concrete
one-by-one instance. -/
theorem reconstruct3DPoints_assignment_pipeline_witness :
    (0 : Nat) < 1 ∧
      ((costMatrix [⟨0,0⟩] [⟨1,1⟩] ⟨1,0,0, 0,1,0, 0,0,1⟩).getD 0 []).getD 0 0
        = pointToPointDist (([(⟨0,0⟩ : Vec2)]).getD 0 vec2zero)
            (([(⟨1,1⟩ : Vec2)]).getD 0 vec2zero) ⟨1,0,0, 0,1,0, 0,0,1⟩ :=
  ⟨by decide,
    (reconstruct3DPoints_assignment_pipeline [⟨0,0⟩] [⟨1,1⟩]
        ⟨1,0,0,0, 0,1,0,0, 0,0,1,0⟩ ⟨1,0,0,0, 0,1,0,0, 0,0,1,2⟩
        ⟨1,0,0, 0,1,0, 0,0,1⟩ (fun _ => ⟨0,0,0,1⟩)).1 0 0 (by decide) (by decide)⟩

/-- C8: the ToolTip RANSAC wrapper `estimatePosition3D_6D` returns `true`
exactly when the engine reports more than 0 inliers, and in both the success
and the zero-inlier case the outputs `pw` and `pm` are assigned from
components 0-2 and 3-5 of the engine's result vector. -/
theorem estimatePosition3D_6D_contract (engine : RansacResult) :
    ((estimatePosition3D_6D engine).1 = true ↔ 0 < engine.inlier)
    ∧ (estimatePosition3D_6D engine).2.1
        = ⟨engine.resultVector.a, engine.resultVector.b, engine.resultVector.c⟩
    ∧ (estimatePosition3D_6D engine).2.2
        = ⟨engine.resultVector.d, engine.resultVector.e, engine.resultVector.f⟩ := by
  refine ⟨?_, rfl, rfl⟩
  simp [estimatePosition3D_6D]

/-- C10: the 2-vector overload of `ProjectPoint` on a 3x4 matrix treats its
argument as the 3D point `(v0, v1, 0)` — the matrix's third column is
skipped — whenever the resulting denominator is nonzero. -/
theorem projectPoint2on34_as_z_zero (P : Mat34) (v : Vec2)
    (h : P.m20 * v.x + P.m21 * v.y + P.m23 ≠ 0) :
    projectPoint2on34 P v = projectPoint3on34 P ⟨v.x, v.y, 0⟩ := by
  simp [projectPoint2on34, projectPoint3on34]

/-- C10 (witness): a concrete projection with nonzero denominator. -/
theorem projectPoint2on34_as_z_zero_witness :
    ((1 : ℚ) * 2 + 0 * 3 + 1 ≠ 0) ∧
      projectPoint2on34 ⟨1,0,5,0, 0,1,7,0, 1,0,9,1⟩ ⟨2,3⟩
        = projectPoint3on34 ⟨1,0,5,0, 0,1,7,0, 1,0,9,1⟩ ⟨2,3,0⟩ :=
  ⟨by norm_num, projectPoint2on34_as_z_zero ⟨1,0,5,0, 0,1,7,0, 1,0,9,1⟩ ⟨2,3⟩ (by norm_num)⟩

end Ubitrack
